import Mathlib

/-!
Verification of the sqlitezstd VFS layer (`vfs.go`) and the vendored
positional-read cursor (`readerat`-style `ReadSeeker`).

The Go code is shallowly embedded: strings are Lean `String`s (suffix and
pre-fix tests are spelled out over `String.data` exactly as Go's
`strings.HasSuffix` / `strings.HasPrefix` compute them), Go `int64` values
are Lean `Int`, byte-buffer arguments are modelled by their lengths, and the
abstract `io.ReaderAt` collaborator is a function from requested length and
offset to the pair (bytes read, optional error).
-/

/-- Go `strings.HasSuffix sfx s`: `len(s) >= len(sfx) && s[len(s)-len(sfx):] == sfx`. -/
def goHasSuffix (s sfx : String) : Bool :=
  decide (s.data.length ≥ sfx.data.length) &&
    (s.data.drop (s.data.length - sfx.data.length) == sfx.data)

/-- Go `strings.HasPrefix p s`: `len(s) >= len(p) && s[:len(p)] == p`. -/
def goHasPre (s p : String) : Bool :=
  s.data.take p.data.length == p.data

/-- Error values from the `sqlite3vfs` package used by `vfs.go`. -/
inductive VfsError
  | ReadOnlyError
  | CantOpenError
deriving DecidableEq, Repr

/-- `sqlite3vfs.OpenReadOnly` flag bit (SQLITE_OPEN_READONLY = 0x1). -/
def OpenReadOnly : Nat := 1

namespace ZstdVFS

/-- `ZstdVFS.Access` from `vfs.go`: returns `(false, nil)` when `name` ends in
`-wal` or `-journal`, `(true, nil)` otherwise.  The flags argument is ignored
by the source. -/
def Access (name : String) (flags : Nat) : Bool × Option VfsError :=
  if goHasSuffix name "-wal" || goHasSuffix name "-journal" then
    (false, none)
  else
    (true, none)

/-- `ZstdVFS.Delete` from `vfs.go`: returns `sqlite3vfs.ReadOnlyError`.  The
receiver `ZstdVFS` carries no state (`struct{}` in Go); we thread it through
explicitly to record that it is untouched. -/
def Delete (z : Unit) (name : String) (dirSync : Bool) : Unit × VfsError :=
  (z, VfsError.ReadOnlyError)

/-- `ZstdVFS.FullPathname` from `vfs.go`: the identity on names. -/
def FullPathname (name : String) : String := name

end ZstdVFS

/-- A concrete shared-memory side-file name used to test the blackout. -/
def sideFileShm : String := "test.sqlite.zst-shm"

/-- **C1 (counterexample).** The claim says `Access` returns false for every
name ending in `-wal`, `-journal`, or `-shm`; but on the concrete name
`"test.sqlite.zst-shm"` (which ends in `-shm`) the code returns true. -/
theorem c1_shm_not_rejected :
    goHasSuffix sideFileShm "-shm" = true ∧
      (ZstdVFS.Access sideFileShm 0).1 = true := by
  decide

/-- **C1 (amended).** `Access(name, flags)` returns false for every name
ending in `-wal` or `-journal`; a name that ends in neither (in particular a
`-shm` name not also ending in `-wal` or `-journal`) returns true. -/
theorem c1_side_file_blackout (name : String) (flags : Nat) :
    ((goHasSuffix name "-wal" || goHasSuffix name "-journal") = true →
        (ZstdVFS.Access name flags).1 = false) ∧
    ((goHasSuffix name "-wal" || goHasSuffix name "-journal") = false →
        (ZstdVFS.Access name flags).1 = true) := by
  unfold ZstdVFS.Access
  constructor <;> intro h <;> simp [h]

/-- **C1 (witness).** Instantiating the amended claim at `"db-wal"`. -/
theorem c1_side_file_blackout_witness :
    (ZstdVFS.Access "db-wal" 0).1 = false :=
  (c1_side_file_blackout "db-wal" 0).1 (by decide)

/-- **C4.** For every name and flags, `Access` returns false exactly when the
name ends in `-wal` or `-journal`, returns true for every other name, and
never reports an error. -/
theorem c4_access_iff (name : String) (flags : Nat) :
    ((ZstdVFS.Access name flags).1 = false ↔
        (goHasSuffix name "-wal" = true ∨ goHasSuffix name "-journal" = true)) ∧
    (ZstdVFS.Access name flags).2 = none := by
  unfold ZstdVFS.Access
  by_cases h1 : goHasSuffix name "-wal" = true
  · simp [h1]
  · by_cases h2 : goHasSuffix name "-journal" = true
    · simp [h1, h2]
    · simp [Bool.not_eq_true] at h1 h2
      simp [h1, h2]

/-- **C8.** For every name and dirSync value, `Delete` leaves the (stateless)
VFS unchanged and returns the read-only error. -/
theorem c8_delete_readonly (z : Unit) (name : String) (dirSync : Bool) :
    (ZstdVFS.Delete z name dirSync).1 = z ∧
      (ZstdVFS.Delete z name dirSync).2 = VfsError.ReadOnlyError := by
  constructor <;> rfl

/-- The byte source chosen by `Open`: either an HTTP range reader over a URL
(`ranger.NewReader` with an `HTTPRanger`) or a local file (`os.Open`). -/
inductive Source
  | HttpRangeSource (url : String)
  | LocalSource (path : String)
deriving DecidableEq, Repr

/-- The `ZstdFile` built by `Open`: it holds the closer for the chosen source
and the seekable-zstd reader constructed over that same source (the zstd
decoder carries no name-dependent state and is elided). -/
structure ZstdFile where
  closer : Source
  seekable : Source
deriving DecidableEq, Repr

/-- Outcomes of the fallible collaborator calls made by `Open`, one field per
call site in `vfs.go`: `url.Parse`, `ranger.NewReader`, `os.Open`,
`zstd.NewReader`, and `seekable.NewReader`. -/
structure OpenEnv where
  urlParseOk : String → Bool
  rangerOk : String → Bool
  osOpenOk : String → Bool
  zstdOk : Bool
  seekableOk : Source → Bool

/-- The tail of `ZstdVFS.Open` after the source has been constructed: create
the zstd decoder, wrap the source in a seekable reader, and return the
`ZstdFile` with the requested flags or-ed with `OpenReadOnly`. -/
def openTail (env : OpenEnv) (src : Source) (flags : Nat) :
    Except VfsError (ZstdFile × Nat) :=
  if env.zstdOk then
    if env.seekableOk src then
      Except.ok (⟨src, src⟩, flags ||| OpenReadOnly)
    else
      Except.error VfsError.CantOpenError
  else
    Except.error VfsError.CantOpenError

/-- `ZstdVFS.Open` from `vfs.go`: names starting with `http://` or `https://`
go through `url.Parse` and `ranger.NewReader`; every other name goes through
`os.Open`; each failure returns `sqlite3vfs.CantOpenError`. -/
def ZstdVFS.Open (env : OpenEnv) (name : String) (flags : Nat) :
    Except VfsError (ZstdFile × Nat) :=
  if goHasPre name "http://" || goHasPre name "https://" then
    if env.urlParseOk name then
      if env.rangerOk name then
        openTail env (Source.HttpRangeSource name) flags
      else
        Except.error VfsError.CantOpenError
    else
      Except.error VfsError.CantOpenError
  else
    if env.osOpenOk name then
      openTail env (Source.LocalSource name) flags
    else
      Except.error VfsError.CantOpenError

/-- An environment in which every collaborator call succeeds. -/
def envAllOk : OpenEnv :=
  ⟨fun _ => true, fun _ => true, fun _ => true, true, fun _ => true⟩

/-- Characterization of a successful `Open`: the flags are the requested ones
or-ed with read-only, the closer and the seekable reader sit over the same
source, and that source is chosen by the scheme of the name. -/
theorem open_ok_elim (env : OpenEnv) (name : String) (flags : Nat)
    (f : ZstdFile) (outFlags : Nat)
    (h : ZstdVFS.Open env name flags = Except.ok (f, outFlags)) :
    outFlags = flags ||| OpenReadOnly ∧ f.closer = f.seekable ∧
      f.seekable =
        (if (goHasPre name "http://" || goHasPre name "https://") = true then
          Source.HttpRangeSource name
        else
          Source.LocalSource name) := by
  unfold ZstdVFS.Open openTail at h
  repeat' split at h
  all_goals first
    | exact Except.noConfusion h
    | (injection h with h
       injection h with h1 h2
       subst h1
       subst h2
       refine ⟨rfl, rfl, ?_⟩
       simp_all)

/-- **C2.** Whenever `Open` succeeds, the returned open-flags have the
read-only bit set, whatever flags were requested. -/
theorem c2_open_readonly_flag (env : OpenEnv) (name : String) (flags : Nat)
    (f : ZstdFile) (outFlags : Nat)
    (h : ZstdVFS.Open env name flags = Except.ok (f, outFlags)) :
    outFlags.testBit 0 = true := by
  obtain ⟨h1, -, -⟩ := open_ok_elim env name flags f outFlags h
  subst h1
  simp [OpenReadOnly, Nat.testBit_lor]

/-- **C2 (witness).** A successful local open with requested flags 0 yields
flags with the read-only bit set. -/
theorem c2_open_readonly_flag_witness :
    Nat.testBit 1 0 = true :=
  c2_open_readonly_flag envAllOk "pets.db.zst" 0
    ⟨Source.LocalSource "pets.db.zst", Source.LocalSource "pets.db.zst"⟩ 1
    rfl

/-- **C3.** Whenever `Open` succeeds, the source was selected by scheme: an
`http://` or `https://` name yields an `HttpRangeSource` over the name and
any other name yields a `LocalSource` over the name, and in both cases the
returned `ZstdFile`'s seekable reader is built over exactly that source. -/
theorem c3_open_scheme (env : OpenEnv) (name : String) (flags : Nat)
    (f : ZstdFile) (outFlags : Nat)
    (h : ZstdVFS.Open env name flags = Except.ok (f, outFlags)) :
    ((goHasPre name "http://" || goHasPre name "https://") = true →
        f.seekable = Source.HttpRangeSource name) ∧
    ((goHasPre name "http://" || goHasPre name "https://") = false →
        f.seekable = Source.LocalSource name) ∧
    f.closer = f.seekable := by
  obtain ⟨-, hc, hs⟩ := open_ok_elim env name flags f outFlags h
  refine ⟨?_, ?_, hc⟩
  · intro hp
    rw [hs, if_pos hp]
  · intro hp
    rw [hs, if_neg]
    simp [hp]

/-- **C3 (witness).** Opening an `http://` URL in the all-succeed environment
produces a file whose seekable reader sits over the HTTP range source. -/
theorem c3_open_scheme_witness :
    (⟨Source.HttpRangeSource "http://h/pets.db.zst",
        Source.HttpRangeSource "http://h/pets.db.zst"⟩ : ZstdFile).seekable =
      Source.HttpRangeSource "http://h/pets.db.zst" :=
  (c3_open_scheme envAllOk "http://h/pets.db.zst" 0
      ⟨Source.HttpRangeSource "http://h/pets.db.zst",
        Source.HttpRangeSource "http://h/pets.db.zst"⟩ 1
      rfl).1 (by decide)

/-- Any error produced by the tail of `Open` is `CantOpenError`. -/
theorem openTail_error_eq (env : OpenEnv) (src : Source) (flags : Nat)
    (e : VfsError) (h : openTail env src flags = Except.error e) :
    e = VfsError.CantOpenError := by
  unfold openTail at h
  repeat split at h
  all_goals first
    | (exact Except.noConfusion h)
    | (injection h with h; exact h.symm)

/-- When the zstd decoder cannot be created, the tail of `Open` fails. -/
theorem openTail_zstd_fail (env : OpenEnv) (src : Source) (flags : Nat)
    (hz : env.zstdOk = false) :
    openTail env src flags = Except.error VfsError.CantOpenError := by
  unfold openTail
  simp [hz]

/-- **C9.** Every failing `Open` returns exactly `CantOpenError` (and, the
result being an `Except.error`, no file handle); moreover each individual
failing step — URL parse, HTTP range source construction, local open,
decoder creation, seekable-reader creation — forces a `CantOpenError`. -/
theorem c9_open_cantopen (env : OpenEnv) (name : String) (flags : Nat) :
    (∀ e, ZstdVFS.Open env name flags = Except.error e →
        e = VfsError.CantOpenError) ∧
    ((goHasPre name "http://" || goHasPre name "https://") = true →
        env.urlParseOk name = false →
        ZstdVFS.Open env name flags = Except.error VfsError.CantOpenError) ∧
    ((goHasPre name "http://" || goHasPre name "https://") = true →
        env.rangerOk name = false →
        ZstdVFS.Open env name flags = Except.error VfsError.CantOpenError) ∧
    ((goHasPre name "http://" || goHasPre name "https://") = false →
        env.osOpenOk name = false →
        ZstdVFS.Open env name flags = Except.error VfsError.CantOpenError) ∧
    (env.zstdOk = false →
        ZstdVFS.Open env name flags = Except.error VfsError.CantOpenError) ∧
    ((∀ s, env.seekableOk s = false) →
        ZstdVFS.Open env name flags = Except.error VfsError.CantOpenError) := by
  refine ⟨?_, ?_, ?_, ?_, ?_, ?_⟩
  · intro e h
    unfold ZstdVFS.Open at h
    repeat' split at h
    all_goals first
      | (exact openTail_error_eq env _ flags e h)
      | (injection h with h; exact h.symm)
  · intro hs hp
    unfold ZstdVFS.Open
    simp [hs, hp]
  · intro hs hr
    unfold ZstdVFS.Open
    rw [if_pos hs]
    by_cases hp : env.urlParseOk name = true
    · simp [hp, hr]
    · simp [hp]
  · intro hs ho
    unfold ZstdVFS.Open
    simp [hs, ho]
  · intro hz
    unfold ZstdVFS.Open
    repeat' split
    all_goals first
      | rfl
      | (exact openTail_zstd_fail env _ flags hz)
  · intro hsk
    unfold ZstdVFS.Open openTail
    repeat' split
    all_goals first
      | rfl
      | (rename_i hcond; exact absurd hcond (by simp [hsk]))

/-- **C9 (witness).** With a missing local file (`os.Open` fails), `Open`
returns `CantOpenError`. -/
theorem c9_open_cantopen_witness :
    ZstdVFS.Open ⟨fun _ => true, fun _ => true, fun _ => false, true, fun _ => true⟩
        "missing.db.zst" 0 = Except.error VfsError.CantOpenError :=
  (c9_open_cantopen
      ⟨fun _ => true, fun _ => true, fun _ => false, true, fun _ => true⟩
      "missing.db.zst" 0).2.2.2.1 (by decide) rfl


/-- Errors involved in the `ReadSeeker` code (`io.EOF`, the three package
errors of the vendored readerat file, and an opaque-to-us error coming back
from the underlying `io.ReaderAt`). -/
inductive IOErr
  | eof
  | errInvalidSize
  | errSeekToInvalidWhence
  | errSeekToNegativePosition
  | readAtFailure
deriving DecidableEq, Repr

/-- The vendored `ReadSeeker`: an `io.ReadSeeker` built from an `io.ReaderAt`
plus a size, with a private cursor offset.  The `io.ReaderAt` collaborator is
passed to `Read` as a function from (requested length, offset) to (bytes
read, optional error); buffers are modelled by their lengths. -/
structure ReadSeeker where
  Size : Int
  offset : Int
deriving DecidableEq, Repr

/-- The `p = p[:length]` truncation inside `Read`: the length of the buffer
actually handed to `ReaderAt.ReadAt`. -/
def ReadSeeker.clampLen (r : ReadSeeker) (plen : Nat) : Nat :=
  if (plen : Int) > r.Size - r.offset then (r.Size - r.offset).toNat else plen

/-- `ReadSeeker.Read` from the vendored readerat file, returning the byte
count, the error, and the updated cursor. -/
def ReadSeeker.Read (r : ReadSeeker) (readAt : Nat → Int → Nat × Option IOErr)
    (plen : Nat) : Nat × Option IOErr × ReadSeeker :=
  if r.Size < 0 then
    (0, some IOErr.errInvalidSize, r)
  else if r.Size ≤ r.offset then
    (0, some IOErr.eof, r)
  else
    let plen2 := r.clampLen plen
    if plen2 = 0 then
      (0, none, r)
    else
      let res := readAt plen2 r.offset
      let newOff := r.offset + (res.1 : Int)
      let errOut :=
        if res.2 = none ∧ newOff = r.Size then some IOErr.eof else res.2
      (res.1, errOut, { r with offset := newOff })

/-- The code after `Seek`'s `switch`: reject a negative resulting offset,
otherwise store and return it. -/
def seekFinish (r : ReadSeeker) (o : Int) : Int × Option IOErr × ReadSeeker :=
  if o < 0 then (0, some IOErr.errSeekToNegativePosition, r)
  else (o, none, { r with offset := o })

/-- `ReadSeeker.Seek` from the vendored readerat file (`io.SeekStart = 0`,
`io.SeekCurrent = 1`, `io.SeekEnd = 2`), returning the new position, the
error, and the updated cursor. -/
def ReadSeeker.Seek (r : ReadSeeker) (offset : Int) (whence : Int) :
    Int × Option IOErr × ReadSeeker :=
  if r.Size < 0 then
    (0, some IOErr.errInvalidSize, r)
  else if whence = 0 then
    seekFinish r offset
  else if whence = 1 then
    seekFinish r (offset + r.offset)
  else if whence = 2 then
    seekFinish r (offset + r.Size)
  else
    (0, some IOErr.errSeekToInvalidWhence, r)

/-- A `ReaderAt` that always reads the full requested length with no error;
used to instantiate witnesses. -/
def fullReadAt : Nat → Int → Nat × Option IOErr := fun n _ => (n, none)

/-- A `Read` on a cursor at or past the end returns the empty EOF result. -/
theorem read_eof_of_le (r : ReadSeeker)
    (readAt : Nat → Int → Nat × Option IOErr) (plen : Nat)
    (hsz : 0 ≤ r.Size) (hoff : r.Size ≤ r.offset) :
    r.Read readAt plen = (0, some IOErr.eof, r) := by
  unfold ReadSeeker.Read
  rw [if_neg (by omega), if_pos hoff]

/-- A from-start `Seek` to a non-negative position always succeeds. -/
theorem seek_start_nonneg (r : ReadSeeker) (o : Int)
    (hsz : 0 ≤ r.Size) (ho : 0 ≤ o) :
    r.Seek o 0 = (o, none, { r with offset := o }) := by
  unfold ReadSeeker.Seek seekFinish
  rw [if_neg (by omega), if_pos rfl, if_neg (not_lt.mpr ho)]

/-- **C5.** On a cursor with non-negative `Size` whose offset is at or past
`Size`, `Read` returns a zero-length read, exactly the EOF signal, and an
unchanged cursor; and seeking (from start) to any position at or past `Size`
succeeds, after which `Read` again returns the empty EOF result. -/
theorem c5_read_at_eof (r : ReadSeeker)
    (readAt : Nat → Int → Nat × Option IOErr) (plen : Nat)
    (hsz : 0 ≤ r.Size) (hoff : r.Size ≤ r.offset) :
    r.Read readAt plen = (0, some IOErr.eof, r) ∧
    (∀ o : Int, r.Size ≤ o →
      r.Seek o 0 = (o, none, { r with offset := o }) ∧
        ({ r with offset := o } : ReadSeeker).Read readAt plen =
          (0, some IOErr.eof, { r with offset := o })) := by
  refine ⟨read_eof_of_le r readAt plen hsz hoff, fun o ho => ?_⟩
  exact ⟨seek_start_nonneg r o hsz (by omega),
    read_eof_of_le { r with offset := o } readAt plen hsz ho⟩

/-- **C5 (witness).** A cursor of size 5 already at offset 7 reads empty with
EOF, and seeking to 9 then reading does the same. -/
theorem c5_read_at_eof_witness :
    (ReadSeeker.mk 5 7).Read fullReadAt 3 = (0, some IOErr.eof, ReadSeeker.mk 5 7) ∧
      (ReadSeeker.mk 5 7).Seek 9 0 = (9, none, ReadSeeker.mk 5 9) ∧
      (ReadSeeker.mk 5 9).Read fullReadAt 3 = (0, some IOErr.eof, ReadSeeker.mk 5 9) :=
  ⟨(c5_read_at_eof (ReadSeeker.mk 5 7) fullReadAt 3 (by decide) (by decide)).1,
   ((c5_read_at_eof (ReadSeeker.mk 5 7) fullReadAt 3 (by decide) (by decide)).2 9
      (by decide)).1,
   ((c5_read_at_eof (ReadSeeker.mk 5 7) fullReadAt 3 (by decide) (by decide)).2 9
      (by decide)).2⟩

/-- **C6.** On a cursor with non-negative `Size`, `Seek` resolves whence 0, 1,
2 as from-start, from-current, from-end (returning and storing the resolved
offset), errors on a negative resulting offset, and errors on every other
whence value. -/
theorem c6_seek_whence (r : ReadSeeker) (o : Int) (whence : Int)
    (hsz : 0 ≤ r.Size) :
    (whence = 0 → 0 ≤ o →
        r.Seek o whence = (o, none, { r with offset := o })) ∧
    (whence = 1 → 0 ≤ o + r.offset →
        r.Seek o whence = (o + r.offset, none, { r with offset := o + r.offset })) ∧
    (whence = 2 → 0 ≤ o + r.Size →
        r.Seek o whence = (o + r.Size, none, { r with offset := o + r.Size })) ∧
    (whence = 0 → o < 0 →
        r.Seek o whence = (0, some IOErr.errSeekToNegativePosition, r)) ∧
    (whence = 1 → o + r.offset < 0 →
        r.Seek o whence = (0, some IOErr.errSeekToNegativePosition, r)) ∧
    (whence = 2 → o + r.Size < 0 →
        r.Seek o whence = (0, some IOErr.errSeekToNegativePosition, r)) ∧
    (¬(whence = 0 ∨ whence = 1 ∨ whence = 2) →
        r.Seek o whence = (0, some IOErr.errSeekToInvalidWhence, r)) := by
  refine ⟨?_, ?_, ?_, ?_, ?_, ?_, ?_⟩
  all_goals intro hw
  all_goals try intro hb
  all_goals unfold ReadSeeker.Seek seekFinish
  all_goals rw [if_neg (by omega)]
  · rw [if_pos hw, if_neg (not_lt.mpr hb)]
  · rw [if_neg (by omega), if_pos hw, if_neg (not_lt.mpr hb)]
  · rw [if_neg (by omega), if_neg (by omega), if_pos hw, if_neg (not_lt.mpr hb)]
  · rw [if_pos hw, if_pos hb]
  · rw [if_neg (by omega), if_pos hw, if_pos hb]
  · rw [if_neg (by omega), if_neg (by omega), if_pos hw, if_pos hb]
  · push_neg at hw
    rw [if_neg hw.1, if_neg hw.2.1, if_neg hw.2.2]

/-- **C6 (witness).** On a size-10 cursor at offset 4: from-start 3, from
current 3, from-end -2, a negative target, and whence 7 behave as claimed. -/
theorem c6_seek_whence_witness :
    (ReadSeeker.mk 10 4).Seek 3 0 = (3, none, ReadSeeker.mk 10 3) ∧
      (ReadSeeker.mk 10 4).Seek 3 1 = (7, none, ReadSeeker.mk 10 7) ∧
      (ReadSeeker.mk 10 4).Seek (-2) 2 = (8, none, ReadSeeker.mk 10 8) ∧
      (ReadSeeker.mk 10 4).Seek (-5) 0 =
        (0, some IOErr.errSeekToNegativePosition, ReadSeeker.mk 10 4) ∧
      (ReadSeeker.mk 10 4).Seek 3 7 =
        (0, some IOErr.errSeekToInvalidWhence, ReadSeeker.mk 10 4) :=
  ⟨(c6_seek_whence (ReadSeeker.mk 10 4) 3 0 (by decide)).1 rfl (by decide),
   (c6_seek_whence (ReadSeeker.mk 10 4) 3 1 (by decide)).2.1 rfl (by decide),
   (c6_seek_whence (ReadSeeker.mk 10 4) (-2) 2 (by decide)).2.2.1 rfl (by decide),
   (c6_seek_whence (ReadSeeker.mk 10 4) (-5) 0 (by decide)).2.2.2.1 rfl (by decide),
   (c6_seek_whence (ReadSeeker.mk 10 4) 3 7 (by decide)).2.2.2.2.2.2 (by decide)⟩

/-- The truncated buffer is never longer than the requested one. -/
theorem clampLen_le (r : ReadSeeker) (plen : Nat) : r.clampLen plen ≤ plen := by
  unfold ReadSeeker.clampLen
  split <;> omega

/-- The truncated buffer never reaches past `Size`. -/
theorem clampLen_le_rest (r : ReadSeeker) (plen : Nat) (h : r.offset ≤ r.Size) :
    (r.clampLen plen : Int) ≤ r.Size - r.offset := by
  unfold ReadSeeker.clampLen
  split <;> omega

/-- The truncated buffer length is exactly the smaller of the request and the
bytes remaining before `Size`. -/
theorem clampLen_eq_min (r : ReadSeeker) (plen : Nat) (h : r.offset ≤ r.Size) :
    (r.clampLen plen : Int) = min (plen : Int) (r.Size - r.offset) := by
  unfold ReadSeeker.clampLen
  split <;> omega

/-- **C7.** Provided the underlying `ReaderAt` honors the `io.ReaderAt`
contract — it reads at most the buffer length, and a nil error means the
buffer was filled completely — every `Read` advances the cursor by exactly
the byte count it returns and returns at most `plen` bytes; from a cursor at
or before `Size` it ends at or before `Size` and returns at most the bytes
remaining before `Size`; and when the positional read succeeds, a request
reaching past `Size` is truncated to end exactly at `Size`, and a short read
(fewer than `plen` bytes) leaves the cursor exactly at `Size`, i.e. happens
only at end-of-resource. -/
theorem c7_read_advance (r : ReadSeeker)
    (readAt : Nat → Int → Nat × Option IOErr) (plen : Nat)
    (hsz : 0 ≤ r.Size)
    (hra : ∀ n off, (readAt n off).1 ≤ n)
    (hfull : ∀ n off, (readAt n off).2 = none → (readAt n off).1 = n) :
    ((r.Read readAt plen).2.2.offset = r.offset + ((r.Read readAt plen).1 : Int)) ∧
    ((r.Read readAt plen).1 ≤ plen) ∧
    (r.offset ≤ r.Size → (r.Read readAt plen).2.2.offset ≤ r.Size) ∧
    (r.offset ≤ r.Size → ((r.Read readAt plen).1 : Int) ≤ r.Size - r.offset) ∧
    (r.offset ≤ r.Size → (readAt (r.clampLen plen) r.offset).2 = none →
      (r.Size < r.offset + (plen : Int) →
          (r.Read readAt plen).2.2.offset = r.Size) ∧
      ((r.Read readAt plen).1 < plen →
          (r.Read readAt plen).2.2.offset = r.Size)) := by
  have h1 := clampLen_le r plen
  have hact := hra (r.clampLen plen) r.offset
  simp only [ReadSeeker.Read]
  rw [if_neg (by omega)]
  by_cases hle : r.Size ≤ r.offset
  · rw [if_pos hle]
    refine ⟨by simp, by simp, fun h => h, fun h => by simp; omega,
      fun h _ => ⟨fun h5 => ?_, fun h6 => ?_⟩⟩
    · simp only []
      omega
    · simp only []
      omega
  · rw [if_neg hle]
    have h2 := clampLen_le_rest r plen (by omega)
    by_cases hpl : r.clampLen plen = 0
    · have hp0 : plen = 0 := by
        revert hpl
        unfold ReadSeeker.clampLen
        split <;> omega
      rw [if_pos hpl]
      refine ⟨by simp, by simp, fun h => h, fun h => by simp; omega,
        fun h _ => ⟨fun h5 => ?_, fun h6 => ?_⟩⟩
      · simp only []
        omega
      · simp only []
        omega
    · rw [if_neg hpl]
      have hmin := clampLen_eq_min r plen (by omega)
      refine ⟨rfl, by omega, fun h => ?_, fun h => ?_, fun h hok => ?_⟩
      · simp only []
        omega
      · simp only []
        omega
      · have heq := hfull (r.clampLen plen) r.offset hok
        exact ⟨fun h5 => by simp only []; omega, fun h6 => by simp only []; omega⟩

/-- **C7 (witness).** A 10-byte request on a size-5 cursor at offset 2, over a
reader that fills its buffer without error, advances the cursor by exactly
the returned count and — the request reaching past the end — ends exactly at
`Size = 5`. -/
theorem c7_read_advance_witness :
    ((ReadSeeker.mk 5 2).Read fullReadAt 10).2.2.offset =
        2 + (((ReadSeeker.mk 5 2).Read fullReadAt 10).1 : Int) ∧
      ((ReadSeeker.mk 5 2).Read fullReadAt 10).2.2.offset = 5 :=
  ⟨(c7_read_advance (ReadSeeker.mk 5 2) fullReadAt 10 (by decide)
      (fun n off => Nat.le_refl n) (fun n off h => rfl)).1,
   ((c7_read_advance (ReadSeeker.mk 5 2) fullReadAt 10 (by decide)
      (fun n off => Nat.le_refl n) (fun n off h => rfl)).2.2.2.2
      (by decide) rfl).1 (by decide)⟩

/-- **C10.** When the positional read succeeds (no error from `ReaderAt`) and
the advanced offset lands exactly on `Size`, the same `Read` call returns the
final bytes together with the EOF signal, not deferring EOF to the next
call. -/
theorem c10_read_eof_same_call (r : ReadSeeker)
    (readAt : Nat → Int → Nat × Option IOErr) (plen : Nat)
    (hsz : 0 ≤ r.Size) (hlt : r.offset < r.Size) (hp : plen ≠ 0)
    (hok : (readAt (r.clampLen plen) r.offset).2 = none)
    (hend : r.offset + ((readAt (r.clampLen plen) r.offset).1 : Int) = r.Size) :
    r.Read readAt plen =
      ((readAt (r.clampLen plen) r.offset).1, some IOErr.eof,
        { r with offset := r.Size }) := by
  have hcl : r.clampLen plen ≠ 0 := by
    unfold ReadSeeker.clampLen
    split <;> omega
  simp only [ReadSeeker.Read]
  rw [if_neg (by omega), if_neg (by omega), if_neg hcl, if_pos ⟨hok, hend⟩]
  rw [hend]

/-- **C10 (witness).** A 4-byte read on a size-4 cursor at offset 0 returns
(4, EOF) in one call. -/
theorem c10_read_eof_same_call_witness :
    (ReadSeeker.mk 4 0).Read fullReadAt 4 =
      (4, some IOErr.eof, ReadSeeker.mk 4 4) :=
  c10_read_eof_same_call (ReadSeeker.mk 4 0) fullReadAt 4
    (by decide) (by decide) (by decide) rfl (by decide)
